import Mathlib

/-!
Shallow embedding of the voice-synthesis pipeline of this repository
(src/src/app/page.tsx and src/src/components/VoiceSelector.tsx).

Strings are modelled by Lean `String` / `List Char`; byte payloads (blobs)
by `List Nat`; JS numbers that carry fractional values (progress, audio
duration, voice settings) by `ℚ`; millisecond clock readings (`Date.now()`)
by `Nat`.  Object URLs created by `URL.createObjectURL` are modelled by the
byte payload they reference.  Network effects are passed in explicitly as an
environment: the provider POST either throws (`Except.error ()`) or returns
a `ProviderResponse`, and the indirect audio fetch is a function from URL to
either an exception or an (ok-flag, body) pair.
-/

set_option autoImplicit false

namespace VoiceApp

/-! ### JS character and string primitives -/

/-- Whitespace recognized by the JS regex class `\s` and `String.prototype.trim`
(ASCII part; the unicode space separators are not modelled). -/
def isJsWs (c : Char) : Bool :=
  c = ' ' || c = '\t' || c = '\n' || c = '\r' || c = '\x0b' || c = '\x0c'

/-- JS `text.trim()` on the character list of a string. -/
def trimList (l : List Char) : List Char :=
  ((l.dropWhile isJsWs).reverse.dropWhile isJsWs).reverse

/-- JS `s.startsWith(pre)`. -/
def jsStartsWith (s pre : String) : Bool := pre.data.isPrefixOf s.data

/-- Occurrence of `sub` as a contiguous substring of `l`. -/
def listContains (sub : List Char) : List Char → Bool
  | [] => sub.isEmpty
  | c :: cs => sub.isPrefixOf (c :: cs) || listContains sub cs

/-- JS `s.includes(sub)`. -/
def jsIncludes (s sub : String) : Bool := listContains sub.data s.data

/-- JS `s.split(sep)` for a single-character separator: boundary matches
produce empty pieces and the empty string splits to `[""]`. -/
def splitOnChar (sep : Char) : List Char → List (List Char)
  | [] => [[]]
  | c :: cs =>
    if c = sep then [] :: splitOnChar sep cs
    else
      match splitOnChar sep cs with
      | [] => [[c]]
      | t :: ts => (c :: t) :: ts

/-! ### window.atob (forgiving base64) -/

/-- ASCII whitespace stripped by forgiving-base64 (TAB, LF, FF, CR, SPACE). -/
def isB64Ws (c : Char) : Bool :=
  c = ' ' || c = '\t' || c = '\n' || c = '\r' || c = '\x0c'

/-- Value of one base64 alphabet character. -/
def b64Val (c : Char) : Option Nat :=
  if 'A' ≤ c ∧ c ≤ 'Z' then some (c.toNat - 65)
  else if 'a' ≤ c ∧ c ≤ 'z' then some (c.toNat - 71)
  else if '0' ≤ c ∧ c ≤ '9' then some (c.toNat + 4)
  else if c = '+' then some 62
  else if c = '/' then some 63
  else none

/-- Reassemble bytes from 6-bit groups; a no-padding tail of two or three
characters contributes one or two bytes. -/
def b64Bytes : List Nat → List Nat
  | a :: b :: c :: d :: rest =>
      (a * 4 + b / 16) :: ((b % 16) * 16 + c / 4) :: ((c % 4) * 64 + d) :: b64Bytes rest
  | [a, b] => [a * 4 + b / 16]
  | [a, b, c] => [a * 4 + b / 16, (b % 16) * 16 + c / 4]
  | _ => []

/-- JS `window.atob`, the WHATWG forgiving-base64 decoder: strip ASCII
whitespace, then up to two trailing `=` when the length is a multiple of
four; reject a remaining length of 1 mod 4 and any character outside the
base64 alphabet; otherwise decode 6-bit groups into bytes. -/
def jsAtob (s : String) : Except String (List Nat) :=
  let d0 := s.data.filter (fun c => !isB64Ws c)
  let d1 :=
    if d0.length % 4 = 0 then
      match d0.reverse with
      | '=' :: '=' :: r => r.reverse
      | '=' :: r => r.reverse
      | _ => d0
    else d0
  if d1.length % 4 = 1 then .error "InvalidCharacterError"
  else
    match d1.mapM b64Val with
    | none => .error "InvalidCharacterError"
    | some vals => .ok (b64Bytes vals)

/-! ### Data model (page.tsx lines 15-31) -/

structure VoiceSettings where
  voice : String
  speed : ℚ
  pitch : ℚ
  stability : ℚ
  clarity : ℚ
deriving DecidableEq

structure GeneratedAudio where
  id : String
  text : String
  voice : String
  audioUrl : List Nat
  duration : ℚ
  createdAt : Nat
  settings : VoiceSettings
deriving DecidableEq

/-- The field `choices[0].message.content` as the decoders observe it. -/
inductive MessageContent where
  | str (s : String)
  | nonString
deriving DecidableEq

/-- One provider HTTP response.  `envelope = none` models a JSON body
without the `choices[0].message` structure; `body` is the raw byte payload
that `response.blob()` would return. -/
structure ProviderResponse where
  ok : Bool
  status : Nat
  contentType : Option String
  envelope : Option MessageContent
  body : List Nat
deriving DecidableEq

/-- JS `contentType?.includes(sub)`: an absent header is falsy. -/
def ctIncludes (ct : Option String) (sub : String) : Bool :=
  match ct with
  | none => false
  | some s => jsIncludes s sub

/-- Environment for the indirect audio fetch: `.error ()` is a network
exception, `.ok (flag, bytes)` an HTTP response with its ok flag and blob. -/
structure FetchEnv where
  fetchUrl : String → Except Unit (Bool × List Nat)

/-! ### Response decoders -/

/-- JS `message.split(",")[1]`, with the out-of-range `undefined` coerced by
`atob` to the string `"undefined"`. -/
def commaSegment1 (s : String) : String :=
  match (splitOnChar ',' s.data).get? 1 with
  | some seg => ⟨seg⟩
  | none => "undefined"

/-- Response decoder of `generateVoice` (src/src/app/page.tsx lines 109-150),
applied to a response whose ok status was already verified.  `.error` is a
thrown decode failure. -/
def mainDecode (env : FetchEnv) (r : ProviderResponse) : Except String (List Nat) :=
  if ctIncludes r.contentType "application/json" then
    match r.envelope with
    | some (.str m) =>
      if jsStartsWith m "data:audio" then
        jsAtob (commaSegment1 m)
      else if jsStartsWith m "http" || jsStartsWith m "https" then
        match env.fetchUrl m with
        | .error _ => .error "network error during audio fetch"
        | .ok (flag, b) =>
          if flag then .ok b else .error "Failed to fetch audio from URL"
      else .error "Unexpected response format from voice API"
    | some .nonString => .error "Unexpected response format from voice API"
    | none => .error "No audio data in response"
  else if ctIncludes r.contentType "audio" then
    .ok r.body
  else if r.body.length = 0 then .error "Empty response from voice API"
  else .ok r.body

/-- Response decoder of `previewVoice` (src/src/components/VoiceSelector.tsx
lines 128-157): same shape dispatch, but there is no ok check on the
indirect fetch, no empty-body check in the fallback branch, and every
failure (an early return or a caught exception) yields `none`. -/
def previewDecode (env : FetchEnv) (r : ProviderResponse) : Option (List Nat) :=
  if ctIncludes r.contentType "application/json" then
    match r.envelope with
    | some (.str m) =>
      if jsStartsWith m "data:audio" then (jsAtob (commaSegment1 m)).toOption
      else if jsStartsWith m "http" || jsStartsWith m "https" then
        match env.fetchUrl m with
        | .error _ => none
        | .ok (_, b) => some b
      else none
    | some .nonString => none
    | none => none
  else some r.body

/-! ### Progress simulator, history store, entity construction -/

/-- One progress-interval tick (page.tsx lines 58-63): hold at 90 or above,
otherwise add the tick's increment (`Math.random() * 15`, a value in
[0, 15)). -/
def progressTick (prev inc : ℚ) : ℚ := if 90 ≤ prev then prev else prev + inc

/-- The update `prev => [newAudio, ...prev.slice(0, 9)]` (page.tsx line 170). -/
def historyUpdate (a : GeneratedAudio) (prev : List GeneratedAudio) : List GeneratedAudio :=
  a :: prev.take 9

/-- Fold a sequence of successful generations into the history store. -/
def insertAll (entries : List GeneratedAudio) (h : List GeneratedAudio) : List GeneratedAudio :=
  entries.foldl (fun acc a => historyUpdate a acc) h

/-- Little-endian decimal digits of `n`; the first argument is structural
fuel, always instantiated with `n` itself (enough since `n` has at most `n`
digits for `n ≥ 1`). -/
def decDigitsAux : Nat → Nat → List Nat
  | 0, _ => []
  | _ + 1, 0 => []
  | fuel + 1, n + 1 => ((n + 1) % 10) :: decDigitsAux fuel ((n + 1) / 10)

/-- JS `Number.prototype.toString()` on a natural number: its decimal
rendering. -/
def natDecimal (n : Nat) : String :=
  if n = 0 then "0" else ⟨((decDigitsAux n n).map Nat.digitChar).reverse⟩

/-- The expression `text.substring(0, 100) + (text.length > 100 ? "..." : "")`
(page.tsx line 161). -/
def storedText (t : String) : String :=
  ⟨t.data.take 100⟩ ++ (if 100 < t.data.length then "..." else "")

/-- The `GeneratedAudio` literal of page.tsx lines 159-167: the id is
`Date.now().toString()` and `createdAt` the same clock reading. -/
def mkGeneratedAudio (now : Nat) (text : String) (settings : VoiceSettings)
    (payload : List Nat) (duration : ℚ) : GeneratedAudio :=
  { id := natDecimal now
    text := storedText text
    voice := settings.voice
    audioUrl := payload
    duration := duration
    createdAt := now
    settings := settings }

/-! ### The generateVoice state transition -/

structure AppState where
  text : String
  isGenerating : Bool
  generationProgress : ℚ
  currentAudio : Option GeneratedAudio
  audioHistory : List GeneratedAudio
  voiceSettings : VoiceSettings
deriving DecidableEq

/-- The outside world during one `generateVoice` run: the provider POST
result (`.error ()` is a network exception), the indirect audio fetch, the
timer increments delivered before the response arrives, `Date.now()`, and
the duration read from the loaded audio metadata. -/
structure GenEnv where
  fetchMain : Except Unit ProviderResponse
  fetchUrl : String → Except Unit (Bool × List Nat)
  progressIncs : List ℚ
  now : Nat
  audioDuration : ℚ

/-- Observable outcome of one `generateVoice` invocation.
`mainFetchCount` counts POSTs issued to the provider endpoint,
`timerCleared` whether `clearInterval` ran, `progressAtResponse` the
progress value right after the provider response arrived, and `failed`
whether the catch block ran (the alert was shown). -/
structure GenResult where
  state : AppState
  mainFetchCount : Nat
  timerStarted : Bool
  timerCleared : Bool
  progressAtResponse : Option ℚ
  failed : Bool
deriving DecidableEq

/-- Guard and synchronous prefix of `generateVoice` (page.tsx lines 51-54):
`if (!text.trim() || isGenerating) return;` then the in-flight flag is set
and progress reset. -/
def beginGeneration (st : AppState) : Option AppState :=
  if (trimList st.text.data).isEmpty || st.isGenerating then none
  else some { st with isGenerating := true, generationProgress := 0 }

/-- Result of an invocation rejected by the guard: no request, no state
change. -/
def noopResult (st : AppState) : GenResult :=
  { state := st
    mainFetchCount := 0
    timerStarted := false
    timerCleared := false
    progressAtResponse := none
    failed := false }

/-- The function `generateVoice` (page.tsx lines 50-179) as one state transition over the
run environment.  `clearInterval` (line 102) runs only when the provider
fetch itself returned: an exception thrown by `fetch` jumps straight to
catch/finally, which reset the in-flight flag and the progress value but
never tear the interval down. -/
def generateVoice (st : AppState) (env : GenEnv) : GenResult :=
  match beginGeneration st with
  | none => noopResult st
  | some st1 =>
    let ticked := { st1 with generationProgress := env.progressIncs.foldl progressTick 0 }
    match env.fetchMain with
    | .error _ =>
      { state := { ticked with isGenerating := false, generationProgress := 0 }
        mainFetchCount := 1
        timerStarted := true
        timerCleared := false
        progressAtResponse := none
        failed := true }
    | .ok resp =>
      let responded := { ticked with generationProgress := 100 }
      if resp.ok then
        match mainDecode ⟨env.fetchUrl⟩ resp with
        | .error _ =>
          { state := { responded with isGenerating := false, generationProgress := 0 }
            mainFetchCount := 1
            timerStarted := true
            timerCleared := true
            progressAtResponse := some 100
            failed := true }
        | .ok payload =>
          let newAudio := mkGeneratedAudio env.now st.text st.voiceSettings payload env.audioDuration
          { state := { responded with
              isGenerating := false
              generationProgress := 0
              currentAudio := some newAudio
              audioHistory := historyUpdate newAudio st.audioHistory }
            mainFetchCount := 1
            timerStarted := true
            timerCleared := true
            progressAtResponse := some 100
            failed := false }
      else
        { state := { responded with isGenerating := false, generationProgress := 0 }
          mainFetchCount := 1
          timerStarted := true
          timerCleared := true
          progressAtResponse := some 100
          failed := true }

/-! ### Word count and estimated duration (page.tsx lines 181-183) -/

/-- Maximal runs of non-whitespace characters: the specification's
"whitespace-separated non-empty tokens".  The accumulator holds the
current (reversed) partial token. -/
def tokensAux : List Char → List Char → List (List Char)
  | [], acc => if acc.isEmpty then [] else [acc.reverse]
  | c :: cs, acc =>
    if isJsWs c then
      if acc.isEmpty then tokensAux cs [] else acc.reverse :: tokensAux cs []
    else tokensAux cs (c :: acc)

def tokens (l : List Char) : List (List Char) := tokensAux l []

/-- JS `text.split(/\s+/)`: the pieces between maximal whitespace runs; a
run touching either end of the string contributes an empty piece.  The
Bool is true while accumulating a token and false while consuming a
whitespace run. -/
def jsSplitRunsAux : Bool → List Char → List Char → List (List Char)
  | true, acc, [] => [acc.reverse]
  | false, _, [] => [[]]
  | true, acc, c :: cs =>
    if isJsWs c then acc.reverse :: jsSplitRunsAux false [] cs
    else jsSplitRunsAux true (c :: acc) cs
  | false, _, c :: cs =>
    if isJsWs c then jsSplitRunsAux false [] cs
    else jsSplitRunsAux true [c] cs

def jsSplitRuns (l : List Char) : List (List Char) := jsSplitRunsAux true [] l

/-- The expression `text.trim().split(/\s+/).filter(word => word.length > 0).length`
(page.tsx line 181). -/
def wordCount (t : String) : Nat :=
  ((jsSplitRuns (trimList t.data)).filter (fun w => 0 < w.length)).length

/-- The expression `Math.ceil(wordCount / 2.5)` (page.tsx line 183). -/
def estimatedDuration (t : String) : Nat :=
  Nat.ceil ((wordCount t : ℚ) / (5 / 2))

/-- Sample settings value used to instantiate witnesses. -/
def sampleSettings : VoiceSettings := ⟨"rachel", 1, 1, 1, 1⟩

/-- Sample history entry used to instantiate witnesses. -/
def sampleAudio (n : Nat) : GeneratedAudio := mkGeneratedAudio n "t" sampleSettings [] 0

/-- Whether the provider fetch returned (as opposed to throwing). -/
def fetchReturned : Except Unit ProviderResponse → Bool
  | .ok _ => true
  | .error _ => false

/-- Sample app state used to instantiate witnesses and counterexamples. -/
def sampleState : AppState := ⟨"hello", false, 0, none, [], sampleSettings⟩

/-- Indirect-fetch environment whose every fetch succeeds with an empty body. -/
def sampleFetchEnv : FetchEnv := ⟨fun _ => .ok (true, [])⟩

/-- A direct audio response. -/
def respDirectAudio : ProviderResponse := ⟨true, 200, some "audio/mpeg", none, [1, 2]⟩

/-- An unrecognized content-type response with an empty body. -/
def respUnknownEmpty : ProviderResponse := ⟨true, 200, some "text/plain", none, []⟩

/-- A JSON envelope carrying a base64 data URI. -/
def respDataUri : ProviderResponse :=
  ⟨true, 200, some "application/json", some (.str "data:audio/mpeg;base64,AAAA"), []⟩

/-- A JSON envelope whose content holds two commas after the data-audio marker. -/
def respTwoCommas : ProviderResponse :=
  ⟨true, 200, some "application/json", some (.str "data:audio,AA,AA"), []⟩

/-- A JSON envelope whose content is an indirect audio URL. -/
def respIndirectUrl : ProviderResponse :=
  ⟨true, 200, some "application/json", some (.str "https://x/y.mp3"), []⟩

/-- Indirect-fetch environment whose every fetch returns a non-ok response
carrying a body. -/
def failFetchEnv : FetchEnv := ⟨fun _ => .ok (false, [9])⟩

/-- The substring after the first comma — the specification's phrase,
written down for comparison with the code's `split(",")[1]`. -/
def afterFirstComma (s : String) : String :=
  ⟨(s.data.dropWhile (fun c => !(c == ','))).drop 1⟩

/-- A run environment whose provider fetch returns the direct audio response. -/
def envOkAudio : GenEnv := ⟨.ok respDirectAudio, fun _ => .ok (true, []), [], 1000, 2⟩

/-- A run environment whose provider fetch throws a network exception. -/
def envException : GenEnv := ⟨.error (), fun _ => .ok (true, []), [], 1000, 2⟩

/-- A run environment whose provider fetch returns an HTTP error status. -/
def envBadStatus : GenEnv :=
  ⟨.ok ⟨false, 500, none, none, []⟩, fun _ => .ok (true, []), [], 1000, 2⟩

/-- Value of a little-endian digit list; inverse of decDigitsAux. -/
def decValue : List Nat → Nat
  | [] => 0
  | d :: ds => d + 10 * decValue ds

/-! ### Verification -/

lemma string_mk_append (a b : List Char) : String.mk a ++ String.mk b = String.mk (a ++ b) := rfl

/-- C1: History length is always at most 10, every successful generation's
entry lands at the front, and after eleven successful generations the first
entry has been evicted while the eleventh is at the front; the success path
of generateVoice performs exactly this front insertion. -/
theorem c1_history_bounded_and_evicts :
    (∀ (a : GeneratedAudio) (l : List GeneratedAudio), (historyUpdate a l).length ≤ 10)
    ∧ (∀ (a : GeneratedAudio) (l : List GeneratedAudio), (historyUpdate a l).head? = some a)
    ∧ (∀ e1 e2 e3 e4 e5 e6 e7 e8 e9 e10 e11 : GeneratedAudio,
        insertAll [e1, e2, e3, e4, e5, e6, e7, e8, e9, e10, e11] []
          = [e11, e10, e9, e8, e7, e6, e5, e4, e3, e2]
        ∧ (e1 ∉ [e2, e3, e4, e5, e6, e7, e8, e9, e10, e11] →
            e1 ∉ insertAll [e1, e2, e3, e4, e5, e6, e7, e8, e9, e10, e11] []))
    ∧ (∀ (st : AppState) (env : GenEnv) (resp : ProviderResponse) (payload : List Nat),
        (trimList st.text.data).isEmpty = false → st.isGenerating = false →
        env.fetchMain = .ok resp → resp.ok = true →
        mainDecode ⟨env.fetchUrl⟩ resp = .ok payload →
        (generateVoice st env).state.audioHistory
          = historyUpdate
              (mkGeneratedAudio env.now st.text st.voiceSettings payload env.audioDuration)
              st.audioHistory) := by
  refine ⟨fun a l => ?_, fun a l => rfl, fun e1 e2 e3 e4 e5 e6 e7 e8 e9 e10 e11 => ⟨rfl, ?_⟩,
    fun st env resp payload h1 h2 h3 h4 h5 => ?_⟩
  · simp only [historyUpdate, List.length_cons, List.length_take]
    omega
  · intro h hmem
    have hmem2 : e1 ∈ [e11, e10, e9, e8, e7, e6, e5, e4, e3, e2] := hmem
    simp only [List.mem_cons, List.not_mem_nil, or_false] at hmem2 h
    tauto
  · have hb : beginGeneration st = some { st with isGenerating := true, generationProgress := 0 } := by
      simp [beginGeneration, h1, h2]
    unfold generateVoice
    rw [hb, h3]
    simp only [h4, if_true]
    rw [h5]

theorem c1_history_bounded_and_evicts_witness :
    sampleAudio 1 ∉
      insertAll [sampleAudio 1, sampleAudio 2, sampleAudio 3, sampleAudio 4, sampleAudio 5,
        sampleAudio 6, sampleAudio 7, sampleAudio 8, sampleAudio 9, sampleAudio 10,
        sampleAudio 11] [] :=
  (c1_history_bounded_and_evicts.2.2.1 (sampleAudio 1) (sampleAudio 2) (sampleAudio 3)
    (sampleAudio 4) (sampleAudio 5) (sampleAudio 6) (sampleAudio 7) (sampleAudio 8)
    (sampleAudio 9) (sampleAudio 10) (sampleAudio 11)).2 (by decide)

/-- C8: The text stored in a GeneratedAudio is the whole input when it has
at most 100 characters and the first 100 characters followed by "..."
otherwise; in particular a 150-character text is stored as its first 100
characters plus "...". -/
theorem c8_text_truncation :
    (∀ t : String,
      storedText t = if t.data.length ≤ 100 then t else String.mk (t.data.take 100) ++ "...")
    ∧ storedText ⟨List.replicate 150 'x'⟩ = String.mk (List.replicate 100 'x') ++ "..."
    ∧ (∀ (now : Nat) (t : String) (s : VoiceSettings) (p : List Nat) (d : ℚ),
        (mkGeneratedAudio now t s p d).text = storedText t) := by
  have h1 : ∀ t : String,
      storedText t = if t.data.length ≤ 100 then t else String.mk (t.data.take 100) ++ "..." := by
    intro t
    obtain ⟨data⟩ := t
    by_cases h : data.length ≤ 100
    · rw [if_pos h]
      show String.mk (data.take 100) ++ (if 100 < data.length then "..." else "") = String.mk data
      rw [if_neg (by omega : ¬ 100 < data.length)]
      show String.mk (data.take 100) ++ String.mk [] = String.mk data
      rw [string_mk_append, List.append_nil, List.take_of_length_le h]
    · rw [if_neg h]
      show String.mk (data.take 100) ++ (if 100 < data.length then "..." else "")
        = String.mk (data.take 100) ++ "..."
      rw [if_pos (by omega : 100 < data.length)]
  refine ⟨h1, ?_, fun now t s p d => rfl⟩
  rw [h1]
  simp [List.take_replicate]

/-- C3: Invoking generate with empty or whitespace-only text, or while a
generation is in flight, is a no-op issuing no provider request and
changing no state; invoking generate twice before the first completes
performs exactly one provider call. -/
theorem c3_generation_guard :
    (∀ (st : AppState) (env : GenEnv),
      ((trimList st.text.data).isEmpty = true ∨ st.isGenerating = true) →
      generateVoice st env = noopResult st)
    ∧ (∀ (st : AppState) (env env2 : GenEnv),
      (trimList st.text.data).isEmpty = false → st.isGenerating = false →
      beginGeneration st = some { st with isGenerating := true, generationProgress := 0 }
      ∧ generateVoice { st with isGenerating := true, generationProgress := 0 } env2
          = noopResult { st with isGenerating := true, generationProgress := 0 }
      ∧ (generateVoice st env).mainFetchCount
          + (generateVoice { st with isGenerating := true, generationProgress := 0 } env2).mainFetchCount
        = 1) := by
  constructor
  · intro st env h
    have hb : beginGeneration st = none := by
      rcases h with h | h <;> simp [beginGeneration, h]
    unfold generateVoice
    rw [hb]
  · intro st env env2 h1 h2
    have hb : beginGeneration st = some { st with isGenerating := true, generationProgress := 0 } := by
      simp [beginGeneration, h1, h2]
    have hmid : beginGeneration { st with isGenerating := true, generationProgress := 0 } = none := by
      simp [beginGeneration]
    have hnoop : generateVoice { st with isGenerating := true, generationProgress := 0 } env2
        = noopResult { st with isGenerating := true, generationProgress := 0 } := by
      unfold generateVoice
      rw [hmid]
    refine ⟨hb, hnoop, ?_⟩
    rw [hnoop]
    have hone : (generateVoice st env).mainFetchCount = 1 := by
      unfold generateVoice
      rw [hb]
      cases env.fetchMain with
      | error e => rfl
      | ok resp =>
        cases hok : resp.ok
        · simp [hok]
        · simp only [hok, if_true]
          cases mainDecode ⟨env.fetchUrl⟩ resp <;> rfl
    rw [hone]
    rfl

theorem c3_generation_guard_witness :
    generateVoice { sampleState with text := " " } envOkAudio
        = noopResult { sampleState with text := " " }
    ∧ (generateVoice sampleState envOkAudio).mainFetchCount
        + (generateVoice { sampleState with isGenerating := true, generationProgress := 0 }
            envException).mainFetchCount
      = 1 :=
  ⟨c3_generation_guard.1 { sampleState with text := " " } envOkAudio (Or.inl (by decide)),
   (c3_generation_guard.2 sampleState envOkAudio envException (by decide) (by decide)).2.2⟩

/-- C4 counterexample: on the exit path where the provider fetch itself
throws a network exception, the run fails (the catch block runs) and the
progress timer was started but never torn down, refuting that the timer is
torn down on every exit path. -/
theorem c4_timer_left_running :
    (generateVoice sampleState envException).failed = true
    ∧ (generateVoice sampleState envException).timerStarted = true
    ∧ (generateVoice sampleState envException).timerCleared = false := by
  decide

/-- C4 (amended): on every exit path of a generation the in-flight flag is
reset to false and the progress value is reset to zero, and the progress
timer is torn down exactly when the provider fetch returned a response; a
network exception thrown by the fetch itself leaves the timer running. -/
theorem c4_cleanup_amended :
    ∀ (st : AppState) (env : GenEnv),
      (trimList st.text.data).isEmpty = false → st.isGenerating = false →
      (generateVoice st env).state.isGenerating = false
      ∧ (generateVoice st env).state.generationProgress = 0
      ∧ (generateVoice st env).timerStarted = true
      ∧ (generateVoice st env).timerCleared = fetchReturned env.fetchMain := by
  intro st env h1 h2
  have hb : beginGeneration st = some { st with isGenerating := true, generationProgress := 0 } := by
    simp [beginGeneration, h1, h2]
  unfold generateVoice
  rw [hb]
  cases env.fetchMain with
  | error e => exact ⟨rfl, rfl, rfl, rfl⟩
  | ok resp =>
    cases hok : resp.ok
    · simp [hok, fetchReturned]
    · simp only [hok, if_true]
      cases mainDecode ⟨env.fetchUrl⟩ resp <;> exact ⟨rfl, rfl, rfl, rfl⟩

theorem c4_cleanup_amended_witness :
    (generateVoice sampleState envBadStatus).state.isGenerating = false
    ∧ (generateVoice sampleState envBadStatus).state.generationProgress = 0
    ∧ (generateVoice sampleState envBadStatus).timerStarted = true
    ∧ (generateVoice sampleState envBadStatus).timerCleared = fetchReturned envBadStatus.fetchMain :=
  c4_cleanup_amended sampleState envBadStatus (by decide) (by decide)

/-- A run either preserves the current-audio slot and the history list, or
it did not fail. -/
lemma gv_preserve_or_ok (st : AppState) (env : GenEnv) :
    ((generateVoice st env).state.currentAudio = st.currentAudio
      ∧ (generateVoice st env).state.audioHistory = st.audioHistory)
    ∨ (generateVoice st env).failed = false := by
  unfold generateVoice
  cases hb : beginGeneration st with
  | none => exact Or.inr rfl
  | some st1 =>
    have hst1 : st1.currentAudio = st.currentAudio ∧ st1.audioHistory = st.audioHistory := by
      unfold beginGeneration at hb
      split at hb
      · exact absurd hb (by simp)
      · cases hb
        exact ⟨rfl, rfl⟩
    cases env.fetchMain with
    | error e => exact Or.inl ⟨hst1.1, hst1.2⟩
    | ok resp =>
      cases hok : resp.ok
      · simp only [hok]
        simp only [Bool.false_eq_true, if_false]
        exact Or.inl ⟨hst1.1, hst1.2⟩
      · simp only [hok, if_true]
        cases mainDecode ⟨env.fetchUrl⟩ resp with
        | error e => exact Or.inl ⟨hst1.1, hst1.2⟩
        | ok payload => exact Or.inr rfl

/-- C5: A failed generation (network exception, HTTP-error status, or
decode failure) leaves the history list and the current-audio slot exactly
as they were before the attempt. -/
theorem c5_failure_preserves_state :
    ∀ (st : AppState) (env : GenEnv),
      (generateVoice st env).failed = true →
      (generateVoice st env).state.currentAudio = st.currentAudio
      ∧ (generateVoice st env).state.audioHistory = st.audioHistory := by
  intro st env hfail
  rcases gv_preserve_or_ok st env with h | h
  · exact h
  · rw [hfail] at h
    exact absurd h (by simp)

/-- C2 counterexample: seven ticks whose increments all lie in [0, 15)
drive the simulated progress from 0 to 98, which exceeds 90 before any
response has arrived; the guard `prev >= 90` only freezes the value once it
is already at or above 90, it does not clip the final increment. -/
theorem c2_progress_exceeds_ninety :
    (∀ x ∈ [(14 : ℚ), 14, 14, 14, 14, 14, 14], 0 ≤ x ∧ x < 15)
    ∧ 90 < List.foldl progressTick 0 [(14 : ℚ), 14, 14, 14, 14, 14, 14] := by
  constructor
  · intro x hx
    have hx14 : x = 14 := by simpa using hx
    subst hx14
    norm_num
  · norm_num [List.foldl, progressTick]

/-- C2 (amended): during one generation the simulated progress stays
strictly below 105 (a single tick from just under 90 can overshoot 90 by
up to one increment, so 90 is not an upper bound but 90 + 15 is); once the
value reaches at least 90 a tick leaves it unchanged; and the value is set
to exactly 100 when the provider response arrives. -/
theorem c2_progress_bounded_amended :
    (∀ (incs : List ℚ) (p : ℚ), p < 105 → (∀ x ∈ incs, 0 ≤ x ∧ x < 15) →
      incs.foldl progressTick p < 105)
    ∧ (∀ incs : List ℚ, (∀ x ∈ incs, 0 ≤ x ∧ x < 15) →
      incs.foldl progressTick 0 < 105)
    ∧ (∀ p inc : ℚ, 90 ≤ p → progressTick p inc = p)
    ∧ (∀ (st : AppState) (env : GenEnv) (resp : ProviderResponse),
      (trimList st.text.data).isEmpty = false → st.isGenerating = false →
      env.fetchMain = .ok resp →
      (generateVoice st env).progressAtResponse = some 100) := by
  have hfold : ∀ (incs : List ℚ) (p : ℚ), p < 105 → (∀ x ∈ incs, 0 ≤ x ∧ x < 15) →
      incs.foldl progressTick p < 105 := by
    intro incs
    induction incs with
    | nil => intro p hp _; simpa using hp
    | cons i is ih =>
      intro p hp hv
      simp only [List.foldl_cons]
      apply ih
      · unfold progressTick
        split
        · exact hp
        · rename_i hlt
          have hi := hv i (by simp)
          push_neg at hlt
          linarith [hi.2]
      · intro x hx
        exact hv x (by simp [hx])
  refine ⟨hfold, fun incs hv => hfold incs 0 (by norm_num) hv, fun p inc h => by
    simp [progressTick, h], ?_⟩
  intro st env resp h1 h2 h3
  have hb : beginGeneration st = some { st with isGenerating := true, generationProgress := 0 } := by
    simp [beginGeneration, h1, h2]
  unfold generateVoice
  rw [hb, h3]
  cases hok : resp.ok
  · simp [hok]
  · simp only [hok, if_true]
    cases mainDecode ⟨env.fetchUrl⟩ resp <;> rfl

theorem c2_progress_bounded_amended_witness :
    List.foldl progressTick 0 ([] : List ℚ) < 105
    ∧ (generateVoice sampleState envOkAudio).progressAtResponse = some 100 :=
  ⟨c2_progress_bounded_amended.2.1 [] (by simp),
   c2_progress_bounded_amended.2.2.2 sampleState envOkAudio respDirectAudio
     (by decide) (by decide) rfl⟩

theorem c5_failure_preserves_state_witness :
    (generateVoice sampleState envBadStatus).state.currentAudio = sampleState.currentAudio
    ∧ (generateVoice sampleState envBadStatus).state.audioHistory = sampleState.audioHistory :=
  c5_failure_preserves_state sampleState envBadStatus (by decide)

/-- C6 counterexample: the two decoders do not fail in exactly the same
cases.  On an unrecognized content-type with an empty body the main decoder
fails with the empty-response error while the preview decoder succeeds with
an empty payload; on an indirect-URL envelope whose second fetch returns a
non-ok response the main decoder fails while the preview decoder returns
that response's body (it never checks `audioResponse.ok`). -/
theorem c6_decoders_diverge :
    (mainDecode sampleFetchEnv respUnknownEmpty = .error "Empty response from voice API"
      ∧ previewDecode sampleFetchEnv respUnknownEmpty = some [])
    ∧ (mainDecode failFetchEnv respIndirectUrl = .error "Failed to fetch audio from URL"
      ∧ previewDecode failFetchEnv respIndirectUrl = some [9]) :=
  ⟨⟨rfl, rfl⟩, ⟨rfl, rfl⟩⟩

/-- C6 (amended): the preview decoder computes the same payload as, and
fails exactly when, the main decoder on every response except the two
divergent situations — an unrecognized content type with an empty body,
and an indirect-URL envelope whose second fetch returns a non-ok status. -/
theorem c6_decoders_agree_amended :
    ∀ (env : FetchEnv) (r : ProviderResponse),
      (ctIncludes r.contentType "application/json" = false →
        ctIncludes r.contentType "audio" = false → r.body ≠ []) →
      (∀ (m : String) (b : List Nat),
        r.envelope = some (.str m) →
        jsStartsWith m "data:audio" = false →
        (jsStartsWith m "http" || jsStartsWith m "https") = true →
        env.fetchUrl m ≠ .ok (false, b)) →
      (mainDecode env r).toOption = previewDecode env r := by
  intro env r h1 h2
  unfold mainDecode previewDecode
  cases hjson : ctIncludes r.contentType "application/json"
  · simp only [Bool.false_eq_true, if_false]
    cases haud : ctIncludes r.contentType "audio"
    · simp only [haud, Bool.false_eq_true, if_false]
      have hbody : r.body ≠ [] := h1 hjson haud
      rw [if_neg (by simpa [List.length_eq_zero] using hbody)]
      rfl
    · simp only [haud, if_true]
      rfl
  · simp only [hjson, if_true]
    cases henv : r.envelope with
    | none => rfl
    | some mc =>
      cases mc with
      | nonString => rfl
      | str m =>
        cases hda : jsStartsWith m "data:audio"
        · simp only [hda, Bool.false_eq_true, if_false]
          cases hhttp : (jsStartsWith m "http" || jsStartsWith m "https")
          · simp only [hhttp, Bool.false_eq_true, if_false]
            rfl
          · simp only [hhttp, if_true]
            cases hfu : env.fetchUrl m with
            | error e => rfl
            | ok pair =>
              obtain ⟨flag, b⟩ := pair
              cases flag
              · exact absurd hfu (h2 m b henv hda hhttp)
              · rfl
        · simp only [hda, if_true]

theorem c6_decoders_agree_amended_witness :
    (mainDecode sampleFetchEnv respDirectAudio).toOption
      = previewDecode sampleFetchEnv respDirectAudio :=
  c6_decoders_agree_amended sampleFetchEnv respDirectAudio
    (by intro hj ha; exact absurd ha (by decide))
    (by intro m b hm hda hhttp; simp [respDirectAudio] at hm)

lemma splitOnChar_ne_nil (sep : Char) (l : List Char) : splitOnChar sep l ≠ [] := by
  induction l with
  | nil => simp [splitOnChar]
  | cons c cs ih =>
    unfold splitOnChar
    split
    · simp
    · cases h : splitOnChar sep cs <;> simp

lemma splitOnChar_count_zero (sep : Char) (l : List Char) (h : l.count sep = 0) :
    splitOnChar sep l = [l] := by
  induction l with
  | nil => rfl
  | cons c cs ih =>
    rw [List.count_cons] at h
    by_cases hcs : c = sep
    · rw [if_pos (show (c == sep) = true by simpa using hcs)] at h
      omega
    · rw [if_neg (show ¬ ((c == sep) = true) by simpa using hcs)] at h
      unfold splitOnChar
      rw [if_neg hcs, ih (by omega)]

/-- When the list holds exactly one separator, the second piece of the
split is everything after that separator. -/
lemma splitOnChar_get1 (sep : Char) (l : List Char) (h : l.count sep = 1) :
    (splitOnChar sep l).get? 1 = some ((l.dropWhile (fun c => !(c == sep))).drop 1) := by
  induction l with
  | nil => simp at h
  | cons c cs ih =>
    rw [List.count_cons] at h
    by_cases hcs : c = sep
    · rw [if_pos (show (c == sep) = true by simpa using hcs)] at h
      have hz : cs.count sep = 0 := by omega
      unfold splitOnChar
      rw [if_pos hcs, splitOnChar_count_zero sep cs hz]
      simp [List.dropWhile, hcs]
    · rw [if_neg (show ¬ ((c == sep) = true) by simpa using hcs)] at h
      have h1 : cs.count sep = 1 := by omega
      unfold splitOnChar
      rw [if_neg hcs]
      have hne := splitOnChar_ne_nil sep cs
      cases hsp : splitOnChar sep cs with
      | nil => exact absurd hsp hne
      | cons t ts =>
        have hih := ih h1
        rw [hsp] at hih
        simp only [List.get?_cons_succ] at hih ⊢
        rw [List.dropWhile_cons]
        simp only [show (c == sep) = false by simpa using hcs]
        simpa using hih

/-- C7 counterexample: for JSON content "data:audio,AA,AA" the code decodes
split(",")[1] = "AA", the segment between the first and second commas,
yielding the byte 0, while the forgiving-base64 decoding of the substring
after the first comma, "AA,AA", fails (length 5 is 1 mod 4); so the decoded
payload does not equal the base64-decoding of the substring after the
first comma. -/
theorem c7_comma_split_diverges :
    mainDecode sampleFetchEnv respTwoCommas = .ok [0]
    ∧ (jsAtob (afterFirstComma "data:audio,AA,AA")).toOption = none :=
  ⟨rfl, rfl⟩

/-- C7 (amended): for every JSON response whose content string begins with
"data:audio", the decoded payload is the atob decoding of split(",")[1] —
the segment between the first and the second comma (atob of the string
"undefined" when there is no comma); when the content holds exactly one
comma this segment is precisely the substring after the first comma, and
in particular content "data:audio/mpeg;base64,AAAA" decodes to the bytes
[0, 0, 0], the base64-decoding of "AAAA". -/
theorem c7_data_uri_decode_amended :
    (∀ (env : FetchEnv) (r : ProviderResponse) (m : String),
      ctIncludes r.contentType "application/json" = true →
      r.envelope = some (.str m) →
      jsStartsWith m "data:audio" = true →
      mainDecode env r = jsAtob (commaSegment1 m))
    ∧ (∀ m : String, m.data.count ',' = 1 → commaSegment1 m = afterFirstComma m)
    ∧ (∀ (env : FetchEnv) (r : ProviderResponse),
      ctIncludes r.contentType "application/json" = true →
      r.envelope = some (.str "data:audio/mpeg;base64,AAAA") →
      mainDecode env r = .ok [0, 0, 0]) := by
  have hpart1 : ∀ (env : FetchEnv) (r : ProviderResponse) (m : String),
      ctIncludes r.contentType "application/json" = true →
      r.envelope = some (.str m) →
      jsStartsWith m "data:audio" = true →
      mainDecode env r = jsAtob (commaSegment1 m) := by
    intro env r m hj he hd
    unfold mainDecode
    simp only [hj, if_true]
    rw [he]
    simp only [hd, if_true]
  refine ⟨hpart1, ?_, ?_⟩
  · intro m hcount
    unfold commaSegment1
    rw [splitOnChar_get1 ',' m.data hcount]
    rfl
  · intro env r hj he
    rw [hpart1 env r "data:audio/mpeg;base64,AAAA" hj he (by decide)]
    rfl

theorem c7_data_uri_decode_amended_witness :
    mainDecode sampleFetchEnv respDataUri = .ok [0, 0, 0]
    ∧ commaSegment1 "a,b" = afterFirstComma "a,b" :=
  ⟨c7_data_uri_decode_amended.2.2 sampleFetchEnv respDataUri (by decide) rfl,
   c7_data_uri_decode_amended.2.1 "a,b" (by decide)⟩

lemma decDigitsAux_value : ∀ (fuel n : Nat), n ≤ fuel → decValue (decDigitsAux fuel n) = n := by
  intro fuel
  induction fuel with
  | zero =>
    intro n hn
    have hz : n = 0 := by omega
    subst hz
    rfl
  | succ f ih =>
    intro n hn
    cases n with
    | zero => rfl
    | succ k =>
      have hdiv : (k + 1) / 10 < k + 1 := Nat.div_lt_self (Nat.succ_pos k) (by norm_num)
      unfold decDigitsAux
      simp only [decValue]
      rw [ih ((k + 1) / 10) (by omega)]
      omega

lemma decDigitsAux_lt : ∀ (fuel n d : Nat), d ∈ decDigitsAux fuel n → d < 10 := by
  intro fuel
  induction fuel with
  | zero => intro n d hd; simp [decDigitsAux] at hd
  | succ f ih =>
    intro n d hd
    cases n with
    | zero => simp [decDigitsAux] at hd
    | succ k =>
      unfold decDigitsAux at hd
      rcases List.mem_cons.mp hd with h | h
      · subst h
        exact Nat.mod_lt _ (by norm_num)
      · exact ih _ _ h

lemma digitChar_inj_on : ∀ a, a < 10 → ∀ b, b < 10 → Nat.digitChar a = Nat.digitChar b → a = b := by
  decide

lemma map_digitChar_inj : ∀ (l1 l2 : List Nat), (∀ x ∈ l1, x < 10) → (∀ x ∈ l2, x < 10) →
    l1.map Nat.digitChar = l2.map Nat.digitChar → l1 = l2 := by
  intro l1
  induction l1 with
  | nil =>
    intro l2 _ _ h
    cases l2 with
    | nil => rfl
    | cons b bs => simp at h
  | cons a as ih =>
    intro l2 h1 h2 h
    cases l2 with
    | nil => simp at h
    | cons b bs =>
      simp only [List.map_cons, List.cons.injEq] at h
      have hab : a = b :=
        digitChar_inj_on a (h1 a (by simp)) b (h2 b (by simp)) h.1
      rw [hab, ih bs (fun x hx => h1 x (by simp [hx])) (fun x hx => h2 x (by simp [hx])) h.2]

/-- The decimal rendering is injective: distinct clock readings yield
distinct identifier strings. -/
lemma natDecimal_inj : ∀ n m : Nat, natDecimal n = natDecimal m → n = m := by
  have key : ∀ n m : Nat, n ≠ 0 → natDecimal n = natDecimal m → m ≠ 0 → n = m := by
    intro n m hn h hm
    unfold natDecimal at h
    rw [if_neg hn, if_neg hm] at h
    have hdata : ((decDigitsAux n n).map Nat.digitChar).reverse
        = ((decDigitsAux m m).map Nat.digitChar).reverse := congrArg String.data h
    have hmap : (decDigitsAux n n).map Nat.digitChar = (decDigitsAux m m).map Nat.digitChar := by
      have := congrArg List.reverse hdata
      simpa using this
    have hdig : decDigitsAux n n = decDigitsAux m m :=
      map_digitChar_inj _ _ (fun x hx => decDigitsAux_lt n n x hx)
        (fun x hx => decDigitsAux_lt m m x hx) hmap
    calc n = decValue (decDigitsAux n n) := (decDigitsAux_value n n le_rfl).symm
      _ = decValue (decDigitsAux m m) := by rw [hdig]
      _ = m := decDigitsAux_value m m le_rfl
  have zkey : ∀ m : Nat, m ≠ 0 → natDecimal 0 ≠ natDecimal m := by
    intro m hm h
    unfold natDecimal at h
    rw [if_pos rfl, if_neg hm] at h
    have hdata : (['0'] : List Char)
        = ((decDigitsAux m m).map Nat.digitChar).reverse := congrArg String.data h
    have hmap : (decDigitsAux m m).map Nat.digitChar = ['0'] := by
      have := congrArg List.reverse hdata
      simpa using this.symm
    have hdig : decDigitsAux m m = [0] :=
      map_digitChar_inj _ [0] (fun x hx => decDigitsAux_lt m m x hx)
        (by intro x hx; simp at hx; omega) (by simpa using hmap)
    have := decDigitsAux_value m m le_rfl
    rw [hdig] at this
    simp [decValue] at this
    exact hm this.symm
  intro n m h
  by_cases hn : n = 0 <;> by_cases hm : m = 0
  · omega
  · subst hn; exact absurd h (zkey m hm)
  · subst hm; exact absurd h.symm (zkey n hn)
  · exact key n m hn h hm

/-- C9 counterexample: two successful generations completing at the same
millisecond clock reading (the id is Date.now().toString()) produce two
distinct GeneratedAudio entries — the input text was edited in between —
that carry the same identifier "1000". -/
theorem c9_same_millisecond_collision :
    (generateVoice sampleState envOkAudio).state.currentAudio
        = some (mkGeneratedAudio 1000 "hello" sampleSettings [1, 2] 2)
    ∧ (generateVoice { (generateVoice sampleState envOkAudio).state with text := "world" }
          envOkAudio).state.currentAudio
        = some (mkGeneratedAudio 1000 "world" sampleSettings [1, 2] 2)
    ∧ mkGeneratedAudio 1000 "hello" sampleSettings [1, 2] 2
        ≠ mkGeneratedAudio 1000 "world" sampleSettings [1, 2] 2
    ∧ (mkGeneratedAudio 1000 "hello" sampleSettings [1, 2] 2).id
        = (mkGeneratedAudio 1000 "world" sampleSettings [1, 2] 2).id :=
  ⟨by decide, by decide, by decide, rfl⟩

/-- C9 (amended): the identifier is the decimal rendering of the creation
clock reading, so entries created at distinct milliseconds carry distinct
identifiers; entries created within the same millisecond share one. -/
theorem c9_distinct_clock_distinct_ids :
    ∀ (n m : Nat) (t1 t2 : String) (s1 s2 : VoiceSettings) (p1 p2 : List Nat) (d1 d2 : ℚ),
      n ≠ m →
      (mkGeneratedAudio n t1 s1 p1 d1).id ≠ (mkGeneratedAudio m t2 s2 p2 d2).id := by
  intro n m t1 t2 s1 s2 p1 p2 d1 d2 hnm hid
  exact hnm (natDecimal_inj n m hid)

theorem c9_distinct_clock_distinct_ids_witness :
    (mkGeneratedAudio 1000 "a" sampleSettings [] 0).id
      ≠ (mkGeneratedAudio 1001 "a" sampleSettings [] 0).id :=
  c9_distinct_clock_distinct_ids 1000 1001 "a" "a" sampleSettings sampleSettings [] [] 0 0
    (by decide)

lemma tokensAux_all_ws : ∀ (s acc : List Char), (∀ c ∈ s, isJsWs c = true) →
    tokensAux s acc = if acc.isEmpty then [] else [acc.reverse] := by
  intro s
  induction s with
  | nil => intro acc h; rfl
  | cons c cs ih =>
    intro acc h
    have hc : isJsWs c = true := h c (by simp)
    unfold tokensAux
    simp only [hc, if_true]
    have hnil : tokensAux cs [] = [] :=
      (ih [] (fun x hx => h x (List.mem_cons_of_mem c hx))).trans rfl
    rw [hnil]

lemma tokensAux_append_ws (m : List Char) : ∀ (s acc : List Char),
    (∀ c ∈ s, isJsWs c = true) → tokensAux (m ++ s) acc = tokensAux m acc := by
  induction m with
  | nil =>
    intro s acc h
    rw [List.nil_append, tokensAux_all_ws s acc h]
    rfl
  | cons c cs ih =>
    intro s acc h
    rw [List.cons_append]
    unfold tokensAux
    cases hc : isJsWs c
    · simp only [hc, Bool.false_eq_true, if_false]
      exact ih s (c :: acc) h
    · simp only [hc, if_true]
      rw [ih s [] h]

lemma tokensAux_ws_cons (c : Char) (cs : List Char) (hc : isJsWs c = true) :
    tokensAux (c :: cs) [] = tokensAux cs [] := by
  conv_lhs => unfold tokensAux
  simp only [hc, if_true]
  rfl

lemma tokens_dropWhile_ws : ∀ l : List Char, tokens (l.dropWhile isJsWs) = tokens l := by
  intro l
  induction l with
  | nil => rfl
  | cons c cs ih =>
    cases hc : isJsWs c
    · simp only [List.dropWhile_cons, hc, Bool.false_eq_true, if_false]
    · simp only [List.dropWhile_cons, hc, if_true]
      rw [ih]
      exact (tokensAux_ws_cons c cs hc).symm

lemma tokens_trimList : ∀ l : List Char, tokens (trimList l) = tokens l := by
  intro l
  unfold trimList
  have hdecomp : l.dropWhile isJsWs
      = ((l.dropWhile isJsWs).reverse.dropWhile isJsWs).reverse
        ++ ((l.dropWhile isJsWs).reverse.takeWhile isJsWs).reverse := by
    conv_lhs => rw [← List.reverse_reverse (l.dropWhile isJsWs),
      ← List.takeWhile_append_dropWhile isJsWs (l.dropWhile isJsWs).reverse]
    rw [List.reverse_append]
  have hws : ∀ c ∈ ((l.dropWhile isJsWs).reverse.takeWhile isJsWs).reverse, isJsWs c = true := by
    intro c hc
    rw [List.mem_reverse] at hc
    exact List.mem_takeWhile_imp hc
  have h1 : tokens (((l.dropWhile isJsWs).reverse.dropWhile isJsWs).reverse)
      = tokens (l.dropWhile isJsWs) := by
    conv_rhs => rw [hdecomp]
    exact (tokensAux_append_ws _ _ [] hws).symm
  rw [h1]
  exact tokens_dropWhile_ws l

lemma filter_jsSplit : ∀ l : List Char,
    (∀ acc : List Char,
      (jsSplitRunsAux true acc l).filter (fun w => 0 < w.length) = tokensAux l acc)
    ∧ (jsSplitRunsAux false [] l).filter (fun w => 0 < w.length) = tokensAux l [] := by
  intro l
  induction l with
  | nil =>
    constructor
    · intro acc
      cases acc with
      | nil => rfl
      | cons a as => simp [jsSplitRunsAux, tokensAux, List.filter]
    · rfl
  | cons c cs ih =>
    obtain ⟨ihT, ihF⟩ := ih
    constructor
    · intro acc
      unfold jsSplitRunsAux tokensAux
      cases hc : isJsWs c
      · simp only [hc, Bool.false_eq_true, if_false]
        exact ihT (c :: acc)
      · simp only [hc, if_true]
        rw [List.filter_cons]
        cases acc with
        | nil => simpa using ihF
        | cons a as =>
          have hcond : decide (0 < ((a :: as).reverse).length) = true := by simp
          rw [hcond]
          simp only [if_true]
          rw [ihF]
          rfl
    · unfold jsSplitRunsAux tokensAux
      cases hc : isJsWs c
      · simp only [hc, Bool.false_eq_true, if_false]
        exact ihT [c]
      · simp only [hc, if_true]
        exact ihF

/-- C10: wordCount equals the number of whitespace-separated non-empty
tokens of the text, and estimatedDuration equals the ceiling of
wordCount / 2.5. -/
theorem c10_word_count :
    (∀ t : String, wordCount t = (tokens t.data).length)
    ∧ (∀ t : String, estimatedDuration t = Nat.ceil ((wordCount t : ℚ) / (5 / 2))) := by
  refine ⟨?_, fun t => rfl⟩
  intro t
  unfold wordCount jsSplitRuns
  rw [(filter_jsSplit (trimList t.data)).1 []]
  show (tokens (trimList t.data)).length = (tokens t.data).length
  rw [tokens_trimList]

end VoiceApp
